import Mathlib

/-
Verification development for the `Chat` component in
`src/YewChat/src/components/chat.rs`.

The component exchanges JSON-encoded envelope messages with a server.  We
embed the component shallowly: JSON decoding (serde_json) is modelled by an
executable JSON parser over `List Char`, the serde-derived decoders for the
two record types are modelled field by field, and the component's `create`
and `update` functions are translated branch by branch.  A Rust `unwrap`
panic is modelled as `none`; external effects (the websocket `try_send`, the
`log::debug!` calls, the input-field DOM node) are modelled as explicit data
in the results.
-/

namespace YewChat

/-- JSON values, as produced by serde_json's parser.  Numbers are kept as
their raw lexeme: no claim about this component depends on numeric values. -/
inductive Json where
  | null
  | bool (b : Bool)
  | num (raw : String)
  | str (s : String)
  | arr (elems : List Json)
  | obj (fields : List (String × Json))

/-- Skip JSON whitespace. -/
def skipWs : List Char → List Char
  | c :: cs => if c = ' ' ∨ c = '\t' ∨ c = '\n' ∨ c = '\r' then skipWs cs else c :: cs
  | [] => []

/-- Value of a hexadecimal digit. -/
def hexVal (c : Char) : Option Nat :=
  let n := c.toNat
  if 48 ≤ n ∧ n ≤ 57 then some (n - 48)
  else if 97 ≤ n ∧ n ≤ 102 then some (n - 87)
  else if 65 ≤ n ∧ n ≤ 70 then some (n - 55)
  else none

/-- Parse the body of a JSON string (the opening quote already consumed).
`acc` holds the decoded characters in reverse. -/
def pStr : List Char → List Char → Option (String × List Char)
  | [], _ => none
  | '\"' :: rest, acc => some (String.mk acc.reverse, rest)
  | '\\' :: '\"' :: r, acc => pStr r ('\"' :: acc)
  | '\\' :: '\\' :: r, acc => pStr r ('\\' :: acc)
  | '\\' :: '/' :: r, acc => pStr r ('/' :: acc)
  | '\\' :: 'b' :: r, acc => pStr r (Char.ofNat 8 :: acc)
  | '\\' :: 'f' :: r, acc => pStr r (Char.ofNat 12 :: acc)
  | '\\' :: 'n' :: r, acc => pStr r ('\n' :: acc)
  | '\\' :: 'r' :: r, acc => pStr r ('\r' :: acc)
  | '\\' :: 't' :: r, acc => pStr r ('\t' :: acc)
  | '\\' :: 'u' :: h1 :: h2 :: h3 :: h4 :: r, acc =>
    match hexVal h1, hexVal h2, hexVal h3, hexVal h4 with
    | some a, some b, some c, some d =>
      let n := ((a * 16 + b) * 16 + c) * 16 + d
      if Nat.isValidChar n then pStr r (Char.ofNat n :: acc) else none
    | _, _, _, _ => none
  | '\\' :: _, _ => none
  | c :: rest, acc => if c.toNat < 32 then none else pStr rest (c :: acc)

/-- Parse the unsigned integer part of a JSON number: `0`, or a nonzero
digit followed by digits. -/
def pUIntPart (cs : List Char) : Option (List Char × List Char) :=
  match cs with
  | '0' :: rest => some (['0'], rest)
  | c :: rest =>
    if c.isDigit then
      match List.span Char.isDigit rest with
      | (ds, rest2) => some (c :: ds, rest2)
    else none
  | [] => none

/-- Parse an optional fraction part: `.` followed by at least one digit. -/
def pFracPart (cs : List Char) : Option (List Char × List Char) :=
  match cs with
  | '.' :: rest =>
    match List.span Char.isDigit rest with
    | ([], _) => none
    | (ds, rest2) => some ('.' :: ds, rest2)
  | _ => some ([], cs)

/-- Parse an optional exponent part: `e`/`E`, optional sign, digits. -/
def pExpPart (cs : List Char) : Option (List Char × List Char) :=
  match cs with
  | c :: rest =>
    if c = 'e' ∨ c = 'E' then
      let (sign, rest1) : List Char × List Char :=
        match rest with
        | '+' :: r => (['+'], r)
        | '-' :: r => (['-'], r)
        | r => ([], r)
      match List.span Char.isDigit rest1 with
      | ([], _) => none
      | (ds, rest2) => some (c :: (sign ++ ds), rest2)
    else some ([], c :: rest)
  | [] => some ([], [])

/-- Parse a JSON number, kept as its raw lexeme. -/
def pNum (cs : List Char) : Option (Json × List Char) := do
  let (sign, cs1) : List Char × List Char :=
    match cs with
    | '-' :: rest => (['-'], rest)
    | _ => ([], cs)
  let (ip, cs2) ← pUIntPart cs1
  let (fp, cs3) ← pFracPart cs2
  let (ep, cs4) ← pExpPart cs3
  pure (Json.num (String.mk (sign ++ ip ++ fp ++ ep)), cs4)

/-- Parsing mode: a value, the items of an array (accumulated in reverse),
or the fields of an object (accumulated in reverse). -/
inductive PMode where
  | value
  | arrItems (acc : List Json)
  | objItems (acc : List (String × Json))

/-- Recursive-descent JSON parser.  The fuel only bounds the number of
recursive calls; every call either consumes input or immediately parses a
value that does, so `2 * length + 4` fuel is ample for any input. -/
def pJson : Nat → PMode → List Char → Option (Json × List Char)
  | 0, _, _ => none
  | Nat.succ fuel, PMode.value, cs =>
    match skipWs cs with
    | 'n' :: 'u' :: 'l' :: 'l' :: rest => some (Json.null, rest)
    | 't' :: 'r' :: 'u' :: 'e' :: rest => some (Json.bool true, rest)
    | 'f' :: 'a' :: 'l' :: 's' :: 'e' :: rest => some (Json.bool false, rest)
    | '\"' :: rest => (pStr rest []).map (fun p => (Json.str p.1, p.2))
    | '\x7b' :: rest => pJson fuel (PMode.objItems []) rest
    | '[' :: rest => pJson fuel (PMode.arrItems []) rest
    | c :: rest => if c = '-' ∨ c.isDigit then pNum (c :: rest) else none
    | [] => none
  | Nat.succ fuel, PMode.arrItems acc, cs =>
    match skipWs cs with
    | ']' :: rest => if acc.isEmpty then some (Json.arr [], rest) else none
    | cs2 =>
      match pJson fuel PMode.value cs2 with
      | none => none
      | some (v, rest) =>
        match skipWs rest with
        | ',' :: rest2 => pJson fuel (PMode.arrItems (v :: acc)) rest2
        | ']' :: rest2 => some (Json.arr (v :: acc).reverse, rest2)
        | _ => none
  | Nat.succ fuel, PMode.objItems acc, cs =>
    match skipWs cs with
    | '\x7d' :: rest => if acc.isEmpty then some (Json.obj [], rest) else none
    | '\"' :: rest =>
      match pStr rest [] with
      | none => none
      | some (k, rest1) =>
        match skipWs rest1 with
        | ':' :: rest2 =>
          match pJson fuel PMode.value rest2 with
          | none => none
          | some (v, rest3) =>
            match skipWs rest3 with
            | ',' :: rest4 => pJson fuel (PMode.objItems ((k, v) :: acc)) rest4
            | '\x7d' :: rest4 => some (Json.obj ((k, v) :: acc).reverse, rest4)
            | _ => none
        | _ => none
    | _ => none

/-- Model of serde_json's top-level parse of a full string: one value,
optionally surrounded by whitespace, and nothing else. -/
def Json.parse (s : String) : Option Json :=
  match pJson (2 * s.length + 4) PMode.value s.data with
  | some (j, rest) =>
    match skipWs rest with
    | [] => some j
    | _ => none
  | none => none

/-- `enum MsgTypes` (chat.rs lines 19-25), serialized with
`rename_all = "lowercase"`. -/
inductive MsgTypes where
  | Users
  | Register
  | Message
deriving DecidableEq, Repr

/-- `struct WebSocketMessage` (chat.rs lines 27-33), field names transmitted
in camelCase (`messageType`, `dataArray`, `data`). -/
structure WebSocketMessage where
  message_type : MsgTypes
  data_array : Option (List String)
  data : Option String
deriving DecidableEq, Repr

/-- `struct MessageData` (chat.rs lines 13-17).  The Rust field `from` is a
Lean keyword, so it is named `from_` here. -/
structure MessageData where
  from_ : String
  message : String
deriving DecidableEq, Repr

/-- `struct UserProfile` (chat.rs lines 35-39). -/
structure UserProfile where
  name : String
  avatar : String
deriving DecidableEq, Repr

/-- The state owned by `struct Chat` (chat.rs lines 41-48).  The `chat_input`
node, websocket handle and event-bus bridge are external handles: the input
field's current text is passed to `update` explicitly, sends are reported as
data. -/
structure Chat where
  users : List UserProfile
  messages : List MessageData
  current_user : String
deriving DecidableEq, Repr

/-- `enum Msg` (chat.rs lines 8-11). -/
inductive Msg where
  | HandleMsg (s : String)
  | SubmitMessage
deriving DecidableEq, Repr

/-- Result of one `update` step: the new state, the returned re-render flag,
the envelopes whose send was attempted, and whether the input field was
cleared. -/
structure UpdateResult where
  state : Chat
  rerender : Bool
  sends : List WebSocketMessage
  inputCleared : Bool
deriving DecidableEq, Repr

/-- Result of `create`: the initial state, the envelopes whose send was
attempted, and the debug log lines emitted. -/
structure CreateResult where
  state : Chat
  sends : List WebSocketMessage
  logs : List String
deriving DecidableEq, Repr

/-- First value bound to a key in a JSON object (serde visits fields in
order; duplicate keys do not occur in any input considered here). -/
def jsonLookup (fields : List (String × Json)) (k : String) : Option Json :=
  (fields.find? (fun p => p.1 == k)).map (fun p => p.2)

/-- serde decoding of `MsgTypes` from a JSON value: exactly one of the three
lowercase tag strings. -/
def decodeMsgType : Json → Option MsgTypes
  | Json.str s =>
    if s = "users" then some MsgTypes.Users
    else if s = "register" then some MsgTypes.Register
    else if s = "message" then some MsgTypes.Message
    else none
  | _ => none

/-- serde decoding of an `Option<String>` field: absent or `null` is `None`,
a string is `Some`, anything else is a decode error. -/
def decodeOptString : Option Json → Option (Option String)
  | none => some none
  | some Json.null => some none
  | some (Json.str s) => some (some s)
  | some _ => none

/-- serde decoding of an `Option<Vec<String>>` field. -/
def decodeOptStringList : Option Json → Option (Option (List String))
  | none => some none
  | some Json.null => some none
  | some (Json.arr xs) =>
    (xs.mapM (fun j => match j with | Json.str s => some s | _ => none)).map some
  | some _ => none

/-- serde decoding of `WebSocketMessage` from a JSON value (derived
`Deserialize` with camelCase field names; unknown fields are ignored). -/
def decodeWS : Json → Option WebSocketMessage
  | Json.obj fields => do
    let mt ← jsonLookup fields "messageType"
    let message_type ← decodeMsgType mt
    let data_array ← decodeOptStringList (jsonLookup fields "dataArray")
    let data ← decodeOptString (jsonLookup fields "data")
    pure { message_type := message_type, data_array := data_array, data := data }
  | _ => none

/-- serde decoding of `MessageData` from a JSON value: both fields required
strings. -/
def decodeMessageData : Json → Option MessageData
  | Json.obj fields => do
    let f ← jsonLookup fields "from"
    let fs ← (match f with | Json.str s => some s | _ => none)
    let m ← jsonLookup fields "message"
    let ms ← (match m with | Json.str s => some s | _ => none)
    pure { from_ := fs, message := ms }
  | _ => none

/-- `serde_json::from_str::<WebSocketMessage>` (chat.rs line 88). -/
def parseEnvelope (s : String) : Option WebSocketMessage :=
  (Json.parse s).bind decodeWS

/-- `serde_json::from_str::<MessageData>` (chat.rs line 106). -/
def parseMessageData (s : String) : Option MessageData :=
  (Json.parse s).bind decodeMessageData

/-- The fixed part of the avatar URL template (chat.rs lines 96-99). -/
def avatarUrlBase : String := "https://api.dicebear.com/7.x/adventurer-neutral/svg?seed="

/-- The `UserProfile` built for one username (chat.rs lines 94-101):
`format!` inserts the username into the template verbatim. -/
def mkProfile (u : String) : UserProfile :=
  { name := u, avatar := avatarUrlBase ++ u }

/-- The registration envelope built in `create` (chat.rs lines 63-67). -/
def registerEnvelope (username : String) : WebSocketMessage :=
  { message_type := MsgTypes.Register, data_array := none, data := some username }

/-- `Chat::create` (chat.rs lines 54-83): reads the username from context,
logs, attempts to send the registration envelope (logging only on success),
and returns the initial state. -/
def create (username : String) (sendOk : Bool) : CreateResult :=
  { state := { users := [], messages := [], current_user := username },
    sends := [registerEnvelope username],
    logs := ["Create function"] ++ (if sendOk then ["Message sent successfully!"] else []) }

/-- Dispatch on `msg.message_type` (chat.rs lines 89-113).  `unwrap` panics
are modelled as `none`. -/
def handleEnvelope (st : Chat) (m : WebSocketMessage) : Option UpdateResult :=
  match m.message_type with
  | MsgTypes.Users =>
    let users_from_message := m.data_array.getD []
    some { state := { st with users := users_from_message.map mkProfile },
           rerender := true, sends := [], inputCleared := false }
  | MsgTypes.Message =>
    match m.data with
    | none => none
    | some d =>
      match parseMessageData d with
      | none => none
      | some message_data =>
        some { state := { st with messages := st.messages ++ [message_data] },
               rerender := true, sends := [], inputCleared := false }
  | MsgTypes.Register => some { state := st, rerender := false, sends := [], inputCleared := false }

/-- The `Msg::HandleMsg` arm (chat.rs lines 87-114): decode the raw frame
(`unwrap` panic on failure modelled as `none`), then dispatch. -/
def handleFrame (st : Chat) (s : String) : Option UpdateResult :=
  match parseEnvelope s with
  | none => none
  | some m => handleEnvelope st m

/-- The `Msg::SubmitMessage` arm (chat.rs lines 115-129): if the input node
casts successfully, build a `message` envelope from its text, attempt the
send (the result only affects a debug log), and clear the field. -/
def submit (st : Chat) (inputField : Option String) (sendOk : Bool) : UpdateResult :=
  match inputField with
  | some t =>
    { state := st, rerender := false,
      sends := [{ message_type := MsgTypes.Message, data_array := none, data := some t }],
      inputCleared := true }
  | none => { state := st, rerender := false, sends := [], inputCleared := false }

/-- `Chat::update` (chat.rs lines 85-131).  `inputField` is the text of the
input node when the cast succeeds; `sendOk` is the outcome `try_send` would
report. -/
def update (st : Chat) (msg : Msg) (inputField : Option String) (sendOk : Bool) : Option UpdateResult :=
  match msg with
  | Msg.HandleMsg s => handleFrame st s
  | Msg.SubmitMessage => some (submit st inputField sendOk)

/-- Process a sequence of inbound frames (each one `Msg::HandleMsg`);
`none` as soon as one frame panics the handler. -/
def handleFrames (st : Chat) : List String → Option Chat
  | [] => some st
  | f :: fs =>
    match update st (Msg.HandleMsg f) none true with
    | none => none
    | some r => handleFrames r.state fs

/-- Run a sequence of update events (message, input-field text, send
outcome) from a state. -/
def run (st : Chat) : List (Msg × Option String × Bool) → Option Chat
  | [] => some st
  | e :: evs =>
    match update st e.1 e.2.1 e.2.2 with
    | none => none
    | some r => run r.state evs

/-- A raw frame that decodes as a `message` envelope whose `data` decodes as
a `MessageData`, and the decoded payload. -/
def decodeMessageFrame (s : String) : Option MessageData :=
  match parseEnvelope s with
  | none => none
  | some env =>
    match env.message_type with
    | MsgTypes.Message =>
      match env.data with
      | none => none
      | some d => parseMessageData d
    | _ => none

/-- A raw frame that decodes as a `users` envelope, and the username list it
carries (defaulted to empty when `dataArray` is absent, as in chat.rs line
91). -/
def decodeUsersFrame (s : String) : Option (List String) :=
  match parseEnvelope s with
  | none => none
  | some env =>
    match env.message_type with
    | MsgTypes.Users => some (env.data_array.getD [])
    | _ => none

/-- How a message body is rendered in the feed (chat.rs lines 212-217). -/
inductive MessageBody where
  | image (src : String)
  | text (s : String)
deriving DecidableEq, Repr

/-- One rendered feed entry (chat.rs lines 198-225). -/
structure FeedEntry where
  sender : String
  isCurrentUser : Bool
  avatar : String
  body : MessageBody
deriving DecidableEq, Repr

/-- Rendering of one message in `Chat::view` (chat.rs lines 181-228): look
up the sender's profile; with no match the message produces no markup. -/
def renderMessage (st : Chat) (m : MessageData) : Option FeedEntry :=
  match st.users.find? (fun u => u.name == m.from_) with
  | some user =>
    some { sender := m.from_,
           isCurrentUser := m.from_ == st.current_user,
           avatar := user.avatar,
           body := if m.message.endsWith ".gif" then MessageBody.image m.message
                   else MessageBody.text m.message }
  | none => none

/-- The rendered message feed (chat.rs lines 180-230). -/
def renderFeed (st : Chat) : List FeedEntry :=
  st.messages.filterMap (renderMessage st)

/-- UTF-8 bytes of a character, as natural numbers. -/
def utf8Bytes (c : Char) : List Nat :=
  let n := c.toNat
  if n < 128 then [n]
  else if n < 2048 then [192 + n / 64, 128 + n % 64]
  else if n < 65536 then [224 + n / 4096, 128 + (n / 64) % 64, 128 + n % 64]
  else [240 + n / 262144, 128 + (n / 4096) % 64, 128 + (n / 64) % 64, 128 + n % 64]

/-- RFC 3986 unreserved bytes: ALPHA, DIGIT, `-`, `.`, `_`, `~`. -/
def isUnreservedByte (b : Nat) : Bool :=
  (65 ≤ b && b ≤ 90) || (97 ≤ b && b ≤ 122) || (48 ≤ b && b ≤ 57) ||
    b == 45 || b == 46 || b == 95 || b == 126

/-- Uppercase hexadecimal digit. -/
def hexDigitChar (n : Nat) : Char :=
  if n < 10 then Char.ofNat (48 + n) else Char.ofNat (55 + n)

/-- Modelled from the spec: section 6 gives the avatar URL scheme as
`https://api.dicebear.com/7.x/adventurer-neutral/svg?seed=<urlencoded
username>`.  The repository contains no URL encoder; this definition follows
the spec's words (RFC 3986 percent-encoding of the username's UTF-8 bytes)
so it can be compared with what `mkProfile` actually computes. -/
def urlEncode (s : String) : String :=
  String.mk (s.data.foldr
    (fun c acc =>
      (utf8Bytes c).foldr
        (fun b acc2 =>
          if isUnreservedByte b then Char.ofNat b :: acc2
          else '%' :: hexDigitChar (b / 16) :: hexDigitChar (b % 16) :: acc2)
        acc)
    [])

/-- Concrete frames used to witness the theorems below. -/
def frameMsgBobHi : String :=
  "\x7b\"messageType\":\"message\",\"data\":\"\x7b\\\"from\\\":\\\"bob\\\",\\\"message\\\":\\\"hi\\\"\x7d\"\x7d"

def frameUsersBobAlice : String :=
  "\x7b\"messageType\":\"users\",\"dataArray\":[\"bob\",\"alice\"]\x7d"

def frameUsersAB : String :=
  "\x7b\"messageType\":\"users\",\"dataArray\":[\"a b\"]\x7d"

def frameRegisterAlice : String :=
  "\x7b\"messageType\":\"register\",\"data\":\"alice\"\x7d"

def frameMsgBadPayload : String :=
  "\x7b\"messageType\":\"message\",\"data\":\"x\"\x7d"

def frameMsgNoData : String :=
  "\x7b\"messageType\":\"message\"\x7d"

def frameMsgNullData : String :=
  "\x7b\"messageType\":\"message\",\"data\":null\x7d"

def frameUsersNoArray : String :=
  "\x7b\"messageType\":\"users\"\x7d"

def frameMsgCatGif : String :=
  "\x7b\"messageType\":\"message\",\"data\":\"\x7b\\\"from\\\":\\\"bob\\\",\\\"message\\\":\\\"cat.gif\\\"\x7d\"\x7d"

/-! ### Helper lemmas about the branches of `handleEnvelope` and `handleFrame` -/

theorem handleEnvelope_users (st : Chat) (env : WebSocketMessage)
    (hm : env.message_type = MsgTypes.Users) :
    handleEnvelope st env =
      some ⟨⟨(env.data_array.getD []).map mkProfile, st.messages, st.current_user⟩,
        true, [], false⟩ := by
  obtain ⟨mt, da, dd⟩ := env
  cases mt with
  | Users => rfl
  | Register => simp at hm
  | Message => simp at hm

theorem handleEnvelope_register (st : Chat) (env : WebSocketMessage)
    (hm : env.message_type = MsgTypes.Register) :
    handleEnvelope st env = some ⟨st, false, [], false⟩ := by
  obtain ⟨mt, da, dd⟩ := env
  cases mt with
  | Register => rfl
  | Users => simp at hm
  | Message => simp at hm

theorem handleEnvelope_message_none (st : Chat) (env : WebSocketMessage)
    (hm : env.message_type = MsgTypes.Message) (hd : env.data = none) :
    handleEnvelope st env = none := by
  obtain ⟨mt, da, dd⟩ := env
  cases mt with
  | Message =>
    cases dd with
    | none => rfl
    | some d => simp at hd
  | Users => simp at hm
  | Register => simp at hm

theorem handleEnvelope_message_bad (st : Chat) (env : WebSocketMessage) (d : String)
    (hm : env.message_type = MsgTypes.Message) (hd : env.data = some d)
    (hp : parseMessageData d = none) :
    handleEnvelope st env = none := by
  obtain ⟨mt, da, dd⟩ := env
  cases mt with
  | Message =>
    cases dd with
    | none => simp at hd
    | some d2 =>
      have hdd : d2 = d := by simpa using hd
      subst hdd
      have e : handleEnvelope st ⟨MsgTypes.Message, da, some d2⟩ =
          (match parseMessageData d2 with
           | none => none
           | some message_data =>
             some ⟨⟨st.users, st.messages ++ [message_data], st.current_user⟩,
               true, [], false⟩) := rfl
      rw [e, hp]
  | Users => simp at hm
  | Register => simp at hm

theorem handleEnvelope_message_ok (st : Chat) (env : WebSocketMessage) (d : String)
    (md : MessageData)
    (hm : env.message_type = MsgTypes.Message) (hd : env.data = some d)
    (hp : parseMessageData d = some md) :
    handleEnvelope st env =
      some ⟨⟨st.users, st.messages ++ [md], st.current_user⟩, true, [], false⟩ := by
  obtain ⟨mt, da, dd⟩ := env
  cases mt with
  | Message =>
    cases dd with
    | none => simp at hd
    | some d2 =>
      have hdd : d2 = d := by simpa using hd
      subst hdd
      have e : handleEnvelope st ⟨MsgTypes.Message, da, some d2⟩ =
          (match parseMessageData d2 with
           | none => none
           | some message_data =>
             some ⟨⟨st.users, st.messages ++ [message_data], st.current_user⟩,
               true, [], false⟩) := rfl
      rw [e, hp]
  | Users => simp at hm
  | Register => simp at hm

theorem handleFrame_some (st : Chat) (s : String) (env : WebSocketMessage)
    (h : parseEnvelope s = some env) : handleFrame st s = handleEnvelope st env := by
  unfold handleFrame
  rw [h]

theorem handleFrame_fail (st : Chat) (s : String) (h : parseEnvelope s = none) :
    handleFrame st s = none := by
  unfold handleFrame
  rw [h]

theorem decodeMessageFrame_spec (s : String) (md : MessageData)
    (h : decodeMessageFrame s = some md) :
    ∃ env d, parseEnvelope s = some env ∧ env.message_type = MsgTypes.Message ∧
      env.data = some d ∧ parseMessageData d = some md := by
  unfold decodeMessageFrame at h
  split at h
  · exact Option.noConfusion h
  · rename_i env he
    split at h
    · rename_i hm
      split at h
      · exact Option.noConfusion h
      · rename_i d hd
        exact ⟨env, d, he, hm, hd, h⟩
    · exact Option.noConfusion h

theorem decodeUsersFrame_spec (s : String) (l : List String)
    (h : decodeUsersFrame s = some l) :
    ∃ env, parseEnvelope s = some env ∧ env.message_type = MsgTypes.Users ∧
      env.data_array.getD [] = l := by
  unfold decodeUsersFrame at h
  split at h
  · exact Option.noConfusion h
  · rename_i env he
    split at h
    · rename_i hm
      injection h with h
      exact ⟨env, he, hm, h⟩
    · exact Option.noConfusion h

theorem update_message_frame (st : Chat) (s : String) (md : MessageData)
    (i : Option String) (b : Bool)
    (h : decodeMessageFrame s = some md) :
    update st (Msg.HandleMsg s) i b =
      some ⟨⟨st.users, st.messages ++ [md], st.current_user⟩, true, [], false⟩ := by
  obtain ⟨env, d, he, hm, hd, hp⟩ := decodeMessageFrame_spec s md h
  show handleFrame st s = _
  rw [handleFrame_some st s env he]
  exact handleEnvelope_message_ok st env d md hm hd hp

theorem update_users_frame (st : Chat) (s : String) (l : List String)
    (i : Option String) (b : Bool)
    (h : decodeUsersFrame s = some l) :
    update st (Msg.HandleMsg s) i b =
      some ⟨⟨l.map mkProfile, st.messages, st.current_user⟩, true, [], false⟩ := by
  obtain ⟨env, he, hm, hl⟩ := decodeUsersFrame_spec s l h
  show handleFrame st s = _
  rw [handleFrame_some st s env he, handleEnvelope_users st env hm, hl]

theorem update_inv (st : Chat) (m : Msg) (i : Option String) (b : Bool) (r : UpdateResult)
    (h : update st m i b = some r) :
    r.state.current_user = st.current_user ∧
      ∀ e ∈ r.sends, e.message_type = MsgTypes.Message := by
  cases m with
  | SubmitMessage =>
    have h2 : some (submit st i b) = some r := h
    injection h2 with h2
    subst h2
    cases i with
    | some t =>
      refine ⟨rfl, ?_⟩
      intro e he
      simp [submit] at he
      subst he
      rfl
    | none =>
      refine ⟨rfl, ?_⟩
      intro e he
      simp [submit] at he
  | HandleMsg s =>
    have h2 : handleFrame st s = some r := h
    unfold handleFrame at h2
    split at h2
    · exact Option.noConfusion h2
    · rename_i env he
      obtain ⟨mt, da, dd⟩ := env
      cases mt with
      | Users =>
        rw [handleEnvelope_users st ⟨MsgTypes.Users, da, dd⟩ rfl] at h2
        injection h2 with h2
        subst h2
        refine ⟨rfl, ?_⟩
        intro e he2
        simp at he2
      | Register =>
        rw [handleEnvelope_register st ⟨MsgTypes.Register, da, dd⟩ rfl] at h2
        injection h2 with h2
        subst h2
        refine ⟨rfl, ?_⟩
        intro e he2
        simp at he2
      | Message =>
        cases dd with
        | none =>
          rw [handleEnvelope_message_none st ⟨MsgTypes.Message, da, none⟩ rfl rfl] at h2
          exact Option.noConfusion h2
        | some d =>
          cases hp : parseMessageData d with
          | none =>
            rw [handleEnvelope_message_bad st ⟨MsgTypes.Message, da, some d⟩ d rfl rfl hp] at h2
            exact Option.noConfusion h2
          | some md =>
            rw [handleEnvelope_message_ok st ⟨MsgTypes.Message, da, some d⟩ d md rfl rfl hp] at h2
            injection h2 with h2
            subst h2
            refine ⟨rfl, ?_⟩
            intro e he2
            simp at he2

theorem run_current_user (st : Chat) (evs : List (Msg × Option String × Bool)) (st2 : Chat)
    (h : run st evs = some st2) : st2.current_user = st.current_user := by
  induction evs generalizing st with
  | nil =>
    have h2 : some st = some st2 := h
    injection h2 with h2
    subst h2
    rfl
  | cons e evs ih =>
    have e1 : run st (e :: evs) =
        (match update st e.1 e.2.1 e.2.2 with
         | none => none
         | some r => run r.state evs) := rfl
    rw [e1] at h
    cases hu : update st e.1 e.2.1 e.2.2 with
    | none => rw [hu] at h; exact Option.noConfusion h
    | some r =>
      rw [hu] at h
      have hc := (update_inv st e.1 e.2.1 e.2.2 r hu).1
      have hr := ih r.state h
      rw [hr, hc]

theorem handleFrames_append (st : Chat) (a c : List String) :
    handleFrames st (a ++ c) =
      (match handleFrames st a with
       | none => none
       | some st1 => handleFrames st1 c) := by
  induction a generalizing st with
  | nil => rfl
  | cons f fs ih =>
    have e1 : handleFrames st ((f :: fs) ++ c) =
        (match update st (Msg.HandleMsg f) none true with
         | none => none
         | some r => handleFrames r.state (fs ++ c)) := rfl
    have e2 : handleFrames st (f :: fs) =
        (match update st (Msg.HandleMsg f) none true with
         | none => none
         | some r => handleFrames r.state fs) := rfl
    rw [e1, e2]
    cases update st (Msg.HandleMsg f) none true with
    | none => rfl
    | some r => exact ih r.state

theorem handleFrames_messages (st : Chat) (frames : List String) (ps : List MessageData)
    (h : List.Forall₂ (fun s md => decodeMessageFrame s = some md) frames ps) :
    handleFrames st frames = some ⟨st.users, st.messages ++ ps, st.current_user⟩ := by
  induction h generalizing st with
  | nil => simp [handleFrames]
  | cons hs hrest ih =>
    rename_i s md frames2 ps2
    have e1 : handleFrames st (s :: frames2) =
        (match update st (Msg.HandleMsg s) none true with
         | none => none
         | some r => handleFrames r.state frames2) := rfl
    rw [e1, update_message_frame st s md none true hs]
    show handleFrames ⟨st.users, st.messages ++ [md], st.current_user⟩ frames2 = _
    rw [ih]
    simp

/-! ### Claim theorems -/

/-- Claim C1: every inbound frame that decodes to a `message` envelope whose
`data` field decodes to a `ChatMessage` appends exactly that payload to the
end of `messages`: the length grows by exactly one, the new last entry is
the decoded payload, all earlier entries are unchanged, and across any
sequence of such frames `messages` is exactly the decoded payloads in
arrival order. -/
theorem c1_message_append :
    (∀ (st : Chat) (s : String) (md : MessageData) (i : Option String) (b : Bool),
        decodeMessageFrame s = some md →
        update st (Msg.HandleMsg s) i b =
          some ⟨⟨st.users, st.messages ++ [md], st.current_user⟩, true, [], false⟩ ∧
        (st.messages ++ [md]).length = st.messages.length + 1 ∧
        (st.messages ++ [md]).getLast? = some md ∧
        ∀ k, k < st.messages.length → (st.messages ++ [md])[k]? = st.messages[k]?)
  ∧ (∀ (st : Chat) (frames : List String) (ps : List MessageData),
        List.Forall₂ (fun s md => decodeMessageFrame s = some md) frames ps →
        handleFrames st frames = some ⟨st.users, st.messages ++ ps, st.current_user⟩) := by
  constructor
  · intro st s md i b h
    refine ⟨update_message_frame st s md i b h, by simp, List.getLast?_concat _, ?_⟩
    intro k hk
    exact List.getElem?_append_left hk
  · intro st frames ps h
    exact handleFrames_messages st frames ps h

theorem c1_witness :
    update ⟨[], [], "alice"⟩ (Msg.HandleMsg frameMsgBobHi) none true =
      some ⟨⟨[], [⟨"bob", "hi"⟩], "alice"⟩, true, [], false⟩ :=
  (c1_message_append.1 ⟨[], [], "alice"⟩ frameMsgBobHi ⟨"bob", "hi"⟩ none true (by rfl)).1

/-- Claim C2: every inbound frame that decodes to a `users` envelope replaces
the entire `users` list with one `UserProfile` per username in `dataArray`
(the empty list when `dataArray` is absent), in `dataArray` order, each with
an avatar URL computed from the username; after any sequence of frames ending
in such an envelope the `users` list reflects only that most recent envelope. -/
theorem c2_users_replace :
    (∀ (st : Chat) (s : String) (l : List String) (i : Option String) (b : Bool),
        decodeUsersFrame s = some l →
        update st (Msg.HandleMsg s) i b =
          some ⟨⟨l.map mkProfile, st.messages, st.current_user⟩, true, [], false⟩)
  ∧ (∀ (st st1 : Chat) (frames : List String) (s : String) (l : List String),
        handleFrames st frames = some st1 →
        decodeUsersFrame s = some l →
        handleFrames st (frames ++ [s]) =
          some ⟨l.map mkProfile, st1.messages, st1.current_user⟩) := by
  constructor
  · intro st s l i b h
    exact update_users_frame st s l i b h
  · intro st st1 frames s l h1 h2
    rw [handleFrames_append, h1]
    show handleFrames st1 [s] = _
    have e1 : handleFrames st1 [s] =
        (match update st1 (Msg.HandleMsg s) none true with
         | none => none
         | some r => handleFrames r.state []) := rfl
    rw [e1, update_users_frame st1 s l none true h2]
    rfl

theorem c2_witness :
    update ⟨[], [], "alice"⟩ (Msg.HandleMsg frameUsersBobAlice) none true =
      some ⟨⟨[mkProfile "bob", mkProfile "alice"], [], "alice"⟩, true, [], false⟩ :=
  c2_users_replace.1 ⟨[], [], "alice"⟩ frameUsersBobAlice ["bob", "alice"] none true (by rfl)

/-- Claim C3: a message `m` whose `from` matches no `UserProfile` in the
current `users` list produces no feed entry when rendering (every rendered
entry has a different sender), while `m` remains in `messages`; in
particular, a `message` envelope arriving in the initial state (before any
`users` envelope) leaves the rendered feed empty while `messages` is
non-empty. -/
theorem c3_unknown_sender_hidden :
    (∀ (st : Chat) (m : MessageData),
        m ∈ st.messages →
        (∀ u ∈ st.users, u.name ≠ m.from_) →
        renderMessage st m = none ∧
        (∀ e ∈ renderFeed st, e.sender ≠ m.from_) ∧
        m ∈ st.messages)
  ∧ (∀ (name s : String) (md : MessageData) (i : Option String) (b : Bool),
        decodeMessageFrame s = some md →
        update ⟨[], [], name⟩ (Msg.HandleMsg s) i b =
          some ⟨⟨[], [md], name⟩, true, [], false⟩ ∧
        renderFeed ⟨[], [md], name⟩ = [] ∧
        ([md] : List MessageData) ≠ []) := by
  constructor
  · intro st m hm hno
    have hfind : st.users.find? (fun u => u.name == m.from_) = none := by
      rw [List.find?_eq_none]
      intro u hu
      simpa using hno u hu
    have hrm : renderMessage st m = none := by
      unfold renderMessage
      rw [hfind]
    refine ⟨hrm, ?_, hm⟩
    intro e he hcontr
    rw [renderFeed, List.mem_filterMap] at he
    obtain ⟨m2, hm2, hr2⟩ := he
    unfold renderMessage at hr2
    cases hf2 : st.users.find? (fun u => u.name == m2.from_) with
    | none => rw [hf2] at hr2; exact Option.noConfusion hr2
    | some u0 =>
      rw [hf2] at hr2
      injection hr2 with hr2
      have hsender : e.sender = m2.from_ := by rw [← hr2]
      have hm2from : m2.from_ = m.from_ := by rw [← hsender, hcontr]
      have hu0 : u0 ∈ st.users := List.mem_of_find?_eq_some hf2
      have hp := List.find?_some hf2
      simp at hp
      rw [hm2from] at hp
      exact hno u0 hu0 hp
  · intro name s md i b h
    refine ⟨update_message_frame ⟨[], [], name⟩ s md i b h, rfl, by simp⟩

theorem c3_witness :
    renderMessage ⟨[], [⟨"bob", "x"⟩], "alice"⟩ ⟨"bob", "x"⟩ = none :=
  (c3_unknown_sender_hidden.1 ⟨[], [⟨"bob", "x"⟩], "alice"⟩ ⟨"bob", "x"⟩ (by simp)
    (by intro u hu; simp at hu)).1

/-- Claim C4: a raw frame that does not decode to an envelope, and a
`message` envelope whose `data` string does not decode to a `ChatMessage`,
make the inbound handler fail fatally (`none`: the `unwrap` panics, no state
update); on well-formed inputs the error branch is never reached. -/
theorem c4_malformed_fatal :
    (∀ (st : Chat) (s : String) (i : Option String) (b : Bool),
        parseEnvelope s = none → update st (Msg.HandleMsg s) i b = none)
  ∧ (∀ (st : Chat) (s : String) (env : WebSocketMessage) (d : String)
        (i : Option String) (b : Bool),
        parseEnvelope s = some env → env.message_type = MsgTypes.Message →
        env.data = some d → parseMessageData d = none →
        update st (Msg.HandleMsg s) i b = none)
  ∧ (∀ (st : Chat) (s : String) (env : WebSocketMessage) (i : Option String) (b : Bool),
        parseEnvelope s = some env →
        (env.message_type = MsgTypes.Message →
          ∃ d md, env.data = some d ∧ parseMessageData d = some md) →
        (update st (Msg.HandleMsg s) i b).isSome = true) := by
  refine ⟨?_, ?_, ?_⟩
  · intro st s i b h
    show handleFrame st s = none
    exact handleFrame_fail st s h
  · intro st s env d i b he hm hd hp
    show handleFrame st s = none
    rw [handleFrame_some st s env he]
    exact handleEnvelope_message_bad st env d hm hd hp
  · intro st s env i b he hwf
    show (handleFrame st s).isSome = true
    rw [handleFrame_some st s env he]
    cases hmt : env.message_type with
    | Users => rw [handleEnvelope_users st env hmt]; rfl
    | Register => rw [handleEnvelope_register st env hmt]; rfl
    | Message =>
      obtain ⟨d, md, hd, hp⟩ := hwf hmt
      rw [handleEnvelope_message_ok st env d md hmt hd hp]; rfl

theorem c4_witness :
    update ⟨[], [], "a"⟩ (Msg.HandleMsg "nope") none true = none ∧
    update ⟨[], [], "a"⟩ (Msg.HandleMsg frameMsgBadPayload) none true = none ∧
    (update ⟨[], [], "a"⟩ (Msg.HandleMsg frameRegisterAlice) none true).isSome = true :=
  ⟨c4_malformed_fatal.1 ⟨[], [], "a"⟩ "nope" none true (by rfl),
   c4_malformed_fatal.2.1 ⟨[], [], "a"⟩ frameMsgBadPayload
     ⟨MsgTypes.Message, none, some "x"⟩ "x" none true (by rfl) rfl rfl (by rfl),
   c4_malformed_fatal.2.2 ⟨[], [], "a"⟩ frameRegisterAlice
     ⟨MsgTypes.Register, none, some "alice"⟩ none true (by rfl)
     (fun hc => absurd hc (by decide))⟩

/-- Claim C5: a submit action with the input field accessible and holding
text `t` (empty string included, no trimming) constructs a `message`
envelope with `data = t`, attempts to send it, clears the input field
regardless of the send outcome, does not fail, leaves the state unchanged,
and triggers no re-render. -/
theorem c5_submit_clears :
    ∀ (st : Chat) (t : String) (sendOk : Bool),
      update st Msg.SubmitMessage (some t) sendOk =
        some ⟨st, false, [⟨MsgTypes.Message, none, some t⟩], true⟩ := by
  intro st t sendOk
  rfl

/-- Claim C6 counterexample: the claim says the avatar URL is the template
base followed by the URL-encoded username.  For the username `"a b"`
(received in a `users` envelope) the component stores the raw username in
the URL, which differs from its percent-encoded form `a%20b`. -/
theorem c6_counterexample :
    (update ⟨[], [], "x"⟩ (Msg.HandleMsg frameUsersAB) none true).map
        (fun r => r.state.users.map UserProfile.avatar) =
      some [avatarUrlBase ++ "a b"] ∧
    avatarUrlBase ++ "a b" ≠ avatarUrlBase ++ urlEncode "a b" := by
  refine ⟨rfl, ?_⟩
  decide

/-- Claim C6 (amended): for every username `u` received in a `users`
envelope, the constructed `UserProfile` has avatar URL equal to the template
base followed by `u` itself, verbatim (no URL encoding); the computation is
deterministic in `u`. -/
theorem c6_avatar_verbatim : ∀ u : String, (mkProfile u).avatar = avatarUrlBase ++ u := by
  intro u
  rfl

/-- Claim C7 counterexample: the claim says a failing registration send is
logged.  On a failing send, `create` emits only the unconditional creation
log line — the conditional log line is emitted on success, not on failure. -/
theorem c7_counterexample :
    (create "alice" false).logs = ["Create function"] ∧
    (create "alice" true).logs = ["Create function", "Message sent successfully!"] :=
  ⟨rfl, rfl⟩

/-- Claim C7 (amended): at creation exactly one registration envelope is
constructed and its send attempted, with `messageType = "register"` and
`data` equal to the session username; creation completes whether or not the
send succeeds (non-fatal, no retry, a failing send being silently ignored —
only a successful send is logged); and no later operation ever sends a
registration envelope. -/
theorem c7_register_once :
    (∀ (name : String) (sendOk : Bool),
        create name sendOk =
          ⟨⟨[], [], name⟩, [⟨MsgTypes.Register, none, some name⟩],
            ["Create function"] ++ (if sendOk then ["Message sent successfully!"] else [])⟩)
  ∧ (∀ (st : Chat) (m : Msg) (i : Option String) (b : Bool) (r : UpdateResult),
        update st m i b = some r → ∀ e ∈ r.sends, e.message_type ≠ MsgTypes.Register) := by
  constructor
  · intro name sendOk
    rfl
  · intro st m i b r h e he
    have hmsg := (update_inv st m i b r h).2 e he
    rw [hmsg]
    decide

theorem c7_witness :
    (⟨MsgTypes.Message, none, some "hi"⟩ : WebSocketMessage).message_type ≠
      MsgTypes.Register :=
  c7_register_once.2 ⟨[], [], "a"⟩ Msg.SubmitMessage (some "hi") true
    (submit ⟨[], [], "a"⟩ (some "hi") true) rfl
    ⟨MsgTypes.Message, none, some "hi"⟩ (by simp [submit])

/-- Claim C8: `current_user` equals the username read from session context
at creation, and every update (users, message and register envelopes, submit
actions) leaves it unchanged: in every reachable state it is the
creation-time value. -/
theorem c8_current_user_fixed :
    (∀ (name : String) (sendOk : Bool), (create name sendOk).state.current_user = name)
  ∧ (∀ (name : String) (sendOk : Bool) (evs : List (Msg × Option String × Bool)) (st2 : Chat),
        run (create name sendOk).state evs = some st2 → st2.current_user = name) := by
  constructor
  · intro name sendOk
    rfl
  · intro name sendOk evs st2 h
    exact run_current_user (create name sendOk).state evs st2 h

theorem c8_witness :
    (⟨[mkProfile "bob", mkProfile "alice"], [], "alice"⟩ : Chat).current_user = "alice" :=
  c8_current_user_fixed.2 "alice" true [(Msg.HandleMsg frameUsersBobAlice, none, true)]
    ⟨[mkProfile "bob", mkProfile "alice"], [], "alice"⟩ (by rfl)

/-- Claim C9: a rendered message whose sender has a matching `UserProfile`
has its body rendered as an image with source equal to the message text
exactly when the text ends with the literal suffix `.gif`, and as text
otherwise; nothing else about the text affects the choice. -/
theorem c9_gif_rendering :
    ∀ (st : Chat) (m : MessageData) (u : UserProfile),
      st.users.find? (fun p => p.name == m.from_) = some u →
      renderMessage st m =
        some ⟨m.from_, m.from_ == st.current_user, u.avatar,
          if m.message.endsWith ".gif" then MessageBody.image m.message
          else MessageBody.text m.message⟩ := by
  intro st m u h
  unfold renderMessage
  rw [h]

theorem c9_witness :
    renderMessage ⟨[mkProfile "bob"], [], "alice"⟩ ⟨"bob", "cat.gif"⟩ =
      some ⟨"bob", "bob" == "alice", (mkProfile "bob").avatar,
        if ("cat.gif" : String).endsWith ".gif" then MessageBody.image "cat.gif"
        else MessageBody.text "cat.gif"⟩ :=
  c9_gif_rendering ⟨[mkProfile "bob"], [], "alice"⟩ ⟨"bob", "cat.gif"⟩ (mkProfile "bob") (by rfl)

/-- Claim C10: a well-formed `message` envelope whose `data` field is absent
or null makes the handler panic (the `unwrap` of `None`, modelled as `none`)
even though the frame is valid JSON, while a `users` envelope with absent
`dataArray` is tolerated and treated as the empty list. -/
theorem c10_message_data_required :
    (∀ (st : Chat) (s : String) (env : WebSocketMessage) (i : Option String) (b : Bool),
        parseEnvelope s = some env → env.message_type = MsgTypes.Message →
        env.data = none → update st (Msg.HandleMsg s) i b = none)
  ∧ (∀ (st : Chat) (s : String) (env : WebSocketMessage) (i : Option String) (b : Bool),
        parseEnvelope s = some env → env.message_type = MsgTypes.Users →
        env.data_array = none →
        update st (Msg.HandleMsg s) i b =
          some ⟨⟨[], st.messages, st.current_user⟩, true, [], false⟩) := by
  constructor
  · intro st s env i b he hm hd
    show handleFrame st s = none
    rw [handleFrame_some st s env he]
    exact handleEnvelope_message_none st env hm hd
  · intro st s env i b he hm hd
    show handleFrame st s = _
    rw [handleFrame_some st s env he, handleEnvelope_users st env hm, hd]
    rfl

theorem c10_witness :
    update ⟨[], [], "a"⟩ (Msg.HandleMsg frameMsgNoData) none true = none ∧
    update ⟨[], [], "a"⟩ (Msg.HandleMsg frameMsgNullData) none true = none ∧
    update ⟨[], [], "a"⟩ (Msg.HandleMsg frameUsersNoArray) none true =
      some ⟨⟨[], [], "a"⟩, true, [], false⟩ :=
  ⟨c10_message_data_required.1 ⟨[], [], "a"⟩ frameMsgNoData
     ⟨MsgTypes.Message, none, none⟩ none true (by rfl) rfl rfl,
   c10_message_data_required.1 ⟨[], [], "a"⟩ frameMsgNullData
     ⟨MsgTypes.Message, none, none⟩ none true (by rfl) rfl rfl,
   c10_message_data_required.2 ⟨[], [], "a"⟩ frameUsersNoArray
     ⟨MsgTypes.Users, none, none⟩ none true (by rfl) rfl rfl⟩

end YewChat
